import Mathlib

/-!
Verification development for the qwex pipeline compiler
(`src/lib/qwxl/src/pipeline.rs` and the `pipeline/` submodules).

The embedding translates the Rust source into executable Lean definitions:

* `Module`, `Task`, `UseRef`, `MetaModule`, `TaskNode`, `PipelineStore`
  follow `ast.rs` as it is used by `renderer.rs` and `parser.rs`
  (`UseRef::Define`/`UseRef::Hash`, `Task { uses, props, cmd }`).
* Props (`ahash::HashMap<String, minijinja::Value>`) are modelled as
  association lists with overwrite-on-insert; values are strings, which is
  the only value shape the verified claims exercise.
* The minijinja template engine is modelled by a small template AST
  (`Part`): literal text, a `props.<k>` lookup (`PropsContext`), and a
  `(<path>.)tasks.<name>(<args>)` call (`RootContext` / `ModuleContext` /
  `TaskScopeProxy`).  minijinja's default lenient behaviour renders an
  undefined `props.<k>` as the empty string.
* The renderer (`compile_task_internal`, `Pipeline::render`), the parser
  (`Pipeline::parse`, `merge_features`, `merge_module_in_place`) and the
  emitter (`ShellGenerator::generate` up to the construction of the
  `tasks_to_render` list) are given as fuel-indexed interpreters so that
  every definition is a computable total function; running out of fuel is
  the distinct outcome `Err.fuel`, which is how unbounded recursion in the
  source is made observable.
* The 64-bit seeded ahash (`RandomState::with_seed(0)`, `AHasher::default()`)
  is abstracted by a concrete deterministic 64-bit string hash; the claims
  depend only on the hash being a deterministic pure function of its input,
  not on particular hash values.
* Filesystem access (`load_file`) is modelled by a pure map from canonical
  path to file content; path canonicalisation and the content-store
  memoisation are elided (the file map is already keyed by canonical path
  and is immutable, so memoisation is the identity).  The diagnostic
  `.ron` cache dump of `Pipeline::compile` is I/O and is elided.
-/

deriving instance DecidableEq for Except

namespace Qwex

/-- Association-list lookup, first binding wins (each store key is bound at
most once, mirroring a hash map). -/
def alookup {K A : Type} [DecidableEq K] : List (K × A) → K → Option A
  | [], _ => none
  | q :: rest, k => if q.1 = k then some q.2 else alookup rest k

/-- Association-list insert with overwrite, mirroring `HashMap::insert`:
replaces the existing binding in place, otherwise appends. -/
def ainsert {K A : Type} [DecidableEq K] : List (K × A) → K → A → List (K × A)
  | [], k, v => [(k, v)]
  | q :: rest, k, v => if q.1 = k then (k, v) :: rest else q :: ainsert rest k v

/-- `base.extend(add)` of `HashMap`: every binding of `add` overwrites the
corresponding binding of `base`. -/
def aextend {K A : Type} [DecidableEq K] (base add : List (K × A)) : List (K × A) :=
  add.foldl (fun b q => ainsert b q.1 q.2) base

/-- Props: `ahash::HashMap<String, minijinja::Value>` with string values. -/
abbrev Props := List (String × String)

/-- `UseRef` from `ast.rs` as used by `parser.rs`/`renderer.rs`: an
unresolved import string or a resolved 64-bit content hash. -/
inductive UseRef where
  | Define (s : String)
  | Hash (h : Nat)
deriving DecidableEq

/-- One template fragment of a task `cmd` (the minijinja constructs the
renderer exposes): literal text, a `props.<k>` lookup, or a
`(<path>.)tasks.<name>(<args>)` task call that inlines the callee's
rendered command. -/
inductive Part where
  | lit (s : String)
  | propRef (k : String)
  | taskCall (path : List String) (nm : String) (args : Props)
deriving DecidableEq

/-- A task `cmd` template: the parsed form of the source string. -/
abbrev Tmpl := List Part

/-- `Task` as used by `renderer.rs`: optional `uses`, task-local `props`,
and the `cmd` template. -/
structure Task where
  uses : Option UseRef
  props : Props
  cmd : Tmpl
deriving DecidableEq

/-- `Module` from `ast.rs`: optional `uses`, `props`, named `tasks` and
named nested `modules`. -/
inductive Module where
  | mk (uses : Option UseRef) (props : Props)
      (tasks : List (String × Task)) (modules : List (String × Module))

def Module.uses : Module → Option UseRef
  | .mk u _ _ _ => u

def Module.props : Module → Props
  | .mk _ p _ _ => p

def Module.tasks : Module → List (String × Task)
  | .mk _ _ t _ => t

def Module.modules : Module → List (String × Module)
  | .mk _ _ _ m => m

def Module.withUses : Module → Option UseRef → Module
  | .mk _ p t m, u => .mk u p t m

def Module.withModules : Module → List (String × Module) → Module
  | .mk u p t _, m => .mk u p t m

/-- `MetaModule`: a resolved module plus the 64-bit content hash of its
source text. -/
structure MetaModule where
  module : Module
  hash : Nat

/-- `TaskNode` from `renderer.rs`: rendered command, dependency hash set,
node hash, human-readable alias. -/
structure TaskNode where
  cmd : String
  deps : List Nat
  hash : Nat
  aliasName : String
deriving DecidableEq

/-- The pipeline stores (`PipelineStore` in `pipeline.rs`).  `metamodules`
and `aliases` are declared in the source.  The declaration of the `tasks`
field is cut off in `pipeline.rs` (a dangling `pub` before the closing
brace); the field is used as `store.tasks : u64 → TaskNode` by
`renderer.rs` and `emitter.rs` and is listed in the spec's store table.
Modelled from the spec: `tasks: u64 → TaskNode`.  The diagnostic-only
`rendered` and `content` stores are elided (no verified claim reads them). -/
structure PipelineStore where
  metamodules : List (Nat × MetaModule)
  aliases : List (String × Nat)
  tasks : List (Nat × TaskNode)

/-- The empty store a fresh `Pipeline` starts with. -/
def pstore0 : PipelineStore := ⟨[], [], []⟩

/-- Deterministic stand-in for the seeded 64-bit ahash
(`RandomState::with_seed(0)` / `AHasher::default()`): a polynomial string
hash reduced mod 2^64.  Deterministic across runs, a pure function of the
input bytes; the exact mixing of ahash is abstracted. -/
def hashStr (s : String) : Nat :=
  s.data.foldl (fun h c => (h * 131 + c.toNat + 1) % 18446744073709551616) 5381

/-- Deterministic serialization of props (stand-in for the
`serde_json::to_string` of the effective-props map used for hashing). -/
def serializeProps (p : Props) : String :=
  String.intercalate "," (p.map (fun q => q.1 ++ "=" ++ q.2))

def serializePart : Part → String
  | .lit s => "L(" ++ s ++ ")"
  | .propRef k => "P(" ++ k ++ ")"
  | .taskCall path nm args =>
      "C(" ++ String.intercalate "." path ++ ";" ++ nm ++ ";" ++ serializeProps args ++ ")"

/-- The source text of a `cmd` template (the string the Rust code hashes). -/
def serializeTmpl (t : Tmpl) : String :=
  String.intercalate "|" (t.map serializePart)

/-- Node hash of `compile_task_internal` step 3: hash of the `cmd` template
source followed by the deterministically serialized effective props. -/
def taskHash (cmd : Tmpl) (eff : Props) : Nat :=
  hashStr (serializeTmpl cmd ++ "#" ++ serializeProps eff)

/-- The module a `uses: Hash(h)` link points at, when registered
(`store.metamodules.get(h)`). -/
def moduleDefTarget (store : PipelineStore) (m : Module) : Option Module :=
  match m.uses with
  | some (UseRef.Hash h) => (alookup store.metamodules h).map (fun mm => mm.module)
  | _ => none

/-- Task-definition lookup of `compile_task_internal` (renderer.rs:181-195)
and `TaskScopeProxy::get_value` (renderer.rs:90-100): the module's own
`tasks`, otherwise one step through `uses: Hash(h)` into
`metamodules[h].tasks`; no deeper chain walk. -/
def lookupTaskDef (store : PipelineStore) (m : Module) (name : String) : Option Task :=
  match alookup m.tasks name with
  | some t => some t
  | none => (moduleDefTarget store m).bind (fun d => alookup d.tasks name)

/-- `PropsContext::get_value` (renderer.rs:148-173): call-site props, then
task props, then the containing module's props, then one step into the
`uses: Hash(h)` target's props. -/
def propsLookupCode (store : PipelineStore) (m : Module)
    (taskProps callProps : Props) (k : String) : Option String :=
  match alookup callProps k with
  | some v => some v
  | none =>
    match alookup taskProps k with
    | some v => some v
    | none =>
      match alookup m.props k with
      | some v => some v
      | none => (moduleDefTarget store m).bind (fun d => alookup d.props k)

/-- Effective props of `compile_task_internal` step 2 (renderer.rs:215-223):
one level of inherited props, then module props, then task props, then
call-site props, later layers overwriting. -/
def effectiveProps (store : PipelineStore) (m : Module) (t : Task) (call : Props) : Props :=
  let base : Props :=
    match moduleDefTarget store m with
    | some d => aextend [] d.props
    | none => []
  aextend (aextend (aextend base m.props) t.props) call

/-- The fresh virtual module built by the `uses:`-sugar paths
(renderer.rs:119-123 and 202-206): `uses = Hash(h)`, the merged props, and
defaulted (empty) tasks/modules. -/
def virtualModule (h : Nat) (p : Props) : Module :=
  Module.mk (some (UseRef.Hash h)) p [] []

/-- Submodule lookup of `ModuleContext::get_value` (renderer.rs:65-75): the
module's own `modules`, otherwise the `uses:`-target definition's
`modules`. -/
def subLookup (store : PipelineStore) (m : Module) (name : String) : Option Module :=
  match alookup m.modules name with
  | some s => some s
  | none => (moduleDefTarget store m).bind (fun d => alookup d.modules name)

/-- Walking a dotted module path below the first hop
(`ModuleContext` chain). -/
def resolvePathFrom (store : PipelineStore) (m : Module) : List String → Option Module
  | [] => some m
  | p :: rest => (subLookup store m p).bind (fun s => resolvePathFrom store s rest)

/-- Walking a dotted module path from the template root.
`RootContext::get_value` (renderer.rs:280-294) resolves the first hop only
through the module's own `modules`; deeper hops go through
`ModuleContext::get_value`. -/
def resolvePathRoot (store : PipelineStore) (m : Module) : List String → Option Module
  | [] => some m
  | p :: rest => (alookup m.modules p).bind (fun s => resolvePathFrom store s rest)

/-- `HashSet::insert` on the shared visited set. -/
def insertNat (l : List Nat) (n : Nat) : List Nat :=
  if l.contains n then l else l ++ [n]

/-- Pipeline errors (error.rs).  The renderer only ever constructs
`Internal` messages; `CyclicDependency`, `InvalidAliasFormat`, `Io` mirror
the variants the parser model needs.  `fuel` marks interpreter fuel
exhaustion: the observable image of unbounded recursion in the source. -/
inductive Err where
  | internal (msg : String)
  | invalidAlias (msg : String)
  | cyclic (aliases : List String)
  | ioErr
  | fuel
deriving DecidableEq

/-- Renderer requests: compile one task invocation
(`compile_task_internal`) or render a template fragment list inside a
module context (the minijinja render of a `cmd`). -/
inductive Rq where
  | comp (mod : Module) (name : String) (call : Props) (visited : List Nat)
  | rend (mod : Module) (taskProps callProps : Props) (t : Tmpl) (visited : List Nat)

/-- Renderer results: a compiled `TaskNode` (plus the visited set after the
call) or a rendered string (plus the visited set). -/
inductive Rs where
  | node (n : TaskNode) (visited : List Nat)
  | str (s : String) (visited : List Nat)
deriving DecidableEq

/-- The renderer interpreter: `compile_task_internal` (renderer.rs:175-270)
together with the template-engine callbacks it installs
(`TaskScopeProxy::get_value`, `PropsContext::get_value`,
`RootContext::get_value`).  The store is behind `Arc<PipelineStore>` during
rendering and is read-only; the session `visited` set is the only threaded
state.  Fuel decreases on every recursive step; the source has no such
bound, so `Err.fuel` stands for recursion that the source would keep
running. -/
def evalR (store : PipelineStore) : Nat → Rq → Except Err Rs
  | 0, _ => .error Err.fuel
  | n + 1, Rq.comp mod name call visited =>
    match lookupTaskDef store mod name with
    | none => .error (Err.internal ("Task " ++ name ++ " not found"))
    | some tdef =>
      match tdef.uses with
      | some (UseRef.Hash h) =>
          evalR store n (Rq.comp (virtualModule h (aextend tdef.props call)) "main" [] visited)
      | _ =>
        let key := taskHash tdef.cmd (effectiveProps store mod tdef call)
        match alookup store.tasks key with
        | some node => .ok (Rs.node node (insertNat visited key))
        | none =>
          match evalR store n (Rq.rend mod tdef.props call tdef.cmd visited) with
          | .ok (Rs.str s v') => .ok (Rs.node (TaskNode.mk s v' key name) v')
          | .ok _ => .error (Err.internal "model: shape")
          | .error e => .error e
  | n + 1, Rq.rend mod tp cp tmpl visited =>
    match tmpl with
    | [] => .ok (Rs.str "" visited)
    | Part.lit s :: rest =>
      match evalR store n (Rq.rend mod tp cp rest visited) with
      | .ok (Rs.str s2 v2) => .ok (Rs.str (s ++ s2) v2)
      | .ok _ => .error (Err.internal "model: shape")
      | .error e => .error e
    | Part.propRef k :: rest =>
      let s := (propsLookupCode store mod tp cp k).getD ""
      match evalR store n (Rq.rend mod tp cp rest visited) with
      | .ok (Rs.str s2 v2) => .ok (Rs.str (s ++ s2) v2)
      | .ok _ => .error (Err.internal "model: shape")
      | .error e => .error e
    | Part.taskCall path nm args :: rest =>
      match resolvePathRoot store mod path with
      | none => .error (Err.internal ("template: " ++ nm ++ " undefined"))
      | some cm =>
        match lookupTaskDef store cm nm with
        | none => .error (Err.internal ("template: " ++ nm ++ " undefined"))
        | some tdef2 =>
          let sub : Except Err Rs :=
            match tdef2.uses with
            | some (UseRef.Hash h) =>
                evalR store n
                  (Rq.comp (virtualModule h (aextend tdef2.props args)) "main" [] visited)
            | _ => evalR store n (Rq.comp cm nm args visited)
          match sub with
          | .ok (Rs.node nd v1) =>
            match evalR store n (Rq.rend mod tp cp rest v1) with
            | .ok (Rs.str s2 v2) => .ok (Rs.str (nd.cmd ++ s2) v2)
            | .ok _ => .error (Err.internal "model: shape")
            | .error e => .error e
          | .ok _ => .error (Err.internal "model: shape")
          | .error e => .error e

/-- `Pipeline::render` (renderer.rs:297-320): look the alias up, fetch the
metamodule, compile the named task with empty call props and a fresh
visited set.  The store is taken and put back unchanged. -/
def renderTop (fuel : Nat) (store : PipelineStore) (aliasName task : String) :
    Except Err TaskNode :=
  match alookup store.aliases aliasName with
  | none => .error (Err.internal ("Alias " ++ aliasName ++ " not found"))
  | some h =>
    match alookup store.metamodules h with
    | none => .error (Err.internal "Module missing")
    | some meta =>
      match evalR store fuel (Rq.comp meta.module task [] []) with
      | .ok (Rs.node n _) => .ok n
      | .ok _ => .error (Err.internal "model: shape")
      | .error e => .error e

/-- The rendered command of one task compilation started with a fresh
visited set (the observable the property claims talk about). -/
def compiledCmd (fuel : Nat) (store : PipelineStore) (mod : Module)
    (name : String) (call : Props) : Except Err String :=
  match evalR store fuel (Rq.comp mod name call []) with
  | .ok (Rs.node n _) => .ok n.cmd
  | .ok _ => .error (Err.internal "model: shape")
  | .error e => .error e

/-! ## Parser and feature merger (`parser.rs`) -/

/-- Reserved submodule key merged into the enclosing `tasks`
(`TASK_PREFIX` in `ast.rs`). -/
def taskKey : String := "tasks"

/-- Reserved submodule key merged into the enclosing `props`
(`PROP_PREFIX` in `ast.rs`). -/
def propKey : String := "props"

/-- Strip leading/trailing feature-bracket characters
(`trim_matches(|c| c == '[' || c == ']')`). -/
def trimBr (s : String) : String :=
  let cs := s.data.dropWhile (fun c => c = '[' ∨ c = ']')
  String.mk ((cs.reverse.dropWhile (fun c => c = '[' ∨ c = ']')).reverse)

/-- Split a character list at every occurrence of a separator character
(structural stand-in for `str::split` at a one-character pattern). -/
def charSplitAux (c : Char) : List Char → List Char → List String
  | [], acc => [String.mk acc]
  | x :: xs, acc =>
    if x = c then String.mk acc :: charSplitAux c xs []
    else charSplitAux c xs (acc ++ [x])

/-- `str::split` at a one-character separator. -/
def charSplit (c : Char) (s : String) : List String := charSplitAux c s.data []

/-- `parse_feature` (parser.rs:45-52): split a submodule key at the first
bracket into the base name and the feature selector. -/
def parseFeature (full : String) : String × Option String :=
  match charSplit '[' full with
  | [] => (full, none)
  | [n] => (n, none)
  | n :: rest => (n, some (trimBr (String.intercalate "[" rest)))

/-- `merge_module_in_place` (parser.rs:62-70): insert the addition's tasks
and props over the base's; `uses` and `modules` of the base are untouched. -/
def mergeModuleInPlace (base addition : Module) : Module :=
  Module.mk base.uses (aextend base.props addition.props)
    (addition.tasks.foldl (fun ts q => ainsert ts q.1 q.2) base.tasks)
    base.modules

/-- One selected entry of the feature fold (parser.rs:92-104): reserved
keys merge in place into the enclosing module, any other key merges into
(or creates) the submodule of that name. -/
def mergeInto (acc : Module) (name : String) (fm : Module) : Module :=
  if name = taskKey ∨ name = propKey then mergeModuleInPlace acc fm
  else
    match alookup acc.modules name with
    | some existing =>
        acc.withModules (ainsert acc.modules name (mergeModuleInPlace existing fm))
    | none => acc.withModules (acc.modules ++ [(name, fm)])

/-- One iteration of the feature fold (parser.rs:83-104): drop the entry
when its feature is not active, otherwise merge it. -/
def mergeStep (included : List String) (acc : Module) (entry : String × Module) : Module :=
  match parseFeature entry.1 with
  | (name, some feat) => if included.contains feat then mergeInto acc name entry.2 else acc
  | (name, none) => mergeInto acc name entry.2

/-- `merge_features` (parser.rs:72-108): start from the module without its
submodules; when `is_src` holds, fold every submodule entry through feature
selection; when it does not, the submodule map of the result stays empty. -/
def mergeFeatures (mf : Module) (isSrc : Bool) (features : String) : Module :=
  let included := charSplit ',' features
  let base := Module.mk mf.uses mf.props mf.tasks []
  if isSrc then mf.modules.foldl (mergeStep included) base else base

/-- A source file as the loader/parser pair observes it: its raw text (the
input of the content hash) and the module its text decodes to
(`load_source`; the YAML/RON decoding itself is not re-modelled). -/
structure SrcFile where
  text : String
  module : Module

/-- The filesystem: canonical path to source file. -/
abbrev FS := List (String × SrcFile)

/-- A resolution job (`ModuleJob`, parser.rs:111-115). -/
structure ModuleJob where
  path : String
  fromA : Option String
  aliasName : String

/-- `resolve_path_and_alias` (parser.rs:129-183) restricted to what the
model observes: the root-alias guard, the dot check, and alias joining.
Physical-path canonicalisation and the `source_paths` bookkeeping are
elided: model paths are already canonical and `source_paths` is only read
on the `from = Some(..)` branch, which `parse` never produces. -/
def resolveJob (rootAlias : String) (job : ModuleJob) : Except Err (String × String) :=
  if job.fromA = none ∧ job.aliasName ≠ rootAlias then
    .error (Err.invalidAlias "my fault bro this should not happen")
  else if job.aliasName.data.contains '.' then
    .error (Err.invalidAlias ("Alias " ++ job.aliasName ++ " cannot contain dots"))
  else
    let joined :=
      match job.fromA with
      | some f => f ++ "." ++ job.aliasName
      | none => job.aliasName
    .ok (job.path, joined)

/-- Parser requests: resolve one module job, or rewrite the `uses:` links
of a submodule list (the `module.modules.iter_mut()` loop of `parse`). -/
inductive PRq where
  | one (job : ModuleJob) (st : PipelineStore)
  | subs (fromA : Option String) (aliasName : String)
      (ms : List (String × Module)) (st : PipelineStore)

/-- Parser results. -/
inductive PRs where
  | meta (mm : MetaModule) (st : PipelineStore)
  | subs (ms : List (String × Module)) (st : PipelineStore)

/-- `Pipeline::parse` (parser.rs:202-279) as a fuel-indexed interpreter.
Faithful structure: resolve path/alias, load, hash, return a cached
metamodule if present, feature-merge with `is_src = job.from.is_none()`,
recursively resolve the module's own `uses:` and every submodule's `uses:`
(each recursive job carries `from: job.from.clone()` and the current
alias), and only then store the metamodule and the alias.  There is no
resolution-stack bookkeeping, so a cyclic import graph recurses until the
fuel runs out (`Err.fuel`), mirroring unbounded recursion in the source. -/
def parseE (fs : FS) (rootAlias features : String) : Nat → PRq → Except Err PRs
  | 0, _ => .error Err.fuel
  | n + 1, PRq.one job st =>
    match resolveJob rootAlias job with
    | .error e => .error e
    | .ok (path, aliasName) =>
      match alookup fs path with
      | none => .error Err.ioErr
      | some file =>
        let h := hashStr file.text
        match alookup st.metamodules h with
        | some mm => .ok (PRs.meta mm st)
        | none =>
          let m0 := mergeFeatures file.module job.fromA.isNone features
          let step1 : Except Err (Module × PipelineStore) :=
            match m0.uses with
            | some (UseRef.Define p) =>
              match parseE fs rootAlias features n
                  (PRq.one (ModuleJob.mk p job.fromA aliasName) st) with
              | .ok (PRs.meta mm st') =>
                  .ok (m0.withUses (some (UseRef.Hash mm.hash)), st')
              | .ok _ => .error (Err.internal "model: shape")
              | .error e => .error e
            | some (UseRef.Hash _) => .error (Err.internal "unreachable: uses already hashed")
            | none => .ok (m0, st)
          match step1 with
          | .error e => .error e
          | .ok (m1, st1) =>
            match parseE fs rootAlias features n
                (PRq.subs job.fromA aliasName m1.modules st1) with
            | .ok (PRs.subs ms' st2) =>
              let meta := MetaModule.mk (m1.withModules ms') h
              let st3 : PipelineStore :=
                { st2 with
                  metamodules := ainsert st2.metamodules h meta
                  aliases := ainsert st2.aliases aliasName h }
              .ok (PRs.meta meta st3)
            | .ok _ => .error (Err.internal "model: shape")
            | .error e => .error e
  | n + 1, PRq.subs fromA aliasName ms st =>
    match ms with
    | [] => .ok (PRs.subs [] st)
    | (nm, sm) :: rest =>
      match sm.uses with
      | some (UseRef.Define p) =>
        match parseE fs rootAlias features n (PRq.one (ModuleJob.mk p fromA aliasName) st) with
        | .ok (PRs.meta mm st') =>
          match parseE fs rootAlias features n (PRq.subs fromA aliasName rest st') with
          | .ok (PRs.subs ms' st'') =>
              .ok (PRs.subs ((nm, sm.withUses (some (UseRef.Hash mm.hash))) :: ms') st'')
          | .ok _ => .error (Err.internal "model: shape")
          | .error e => .error e
        | .ok _ => .error (Err.internal "model: shape")
        | .error e => .error e
      | some (UseRef.Hash _) => .error (Err.internal "unreachable: uses already hashed")
      | none =>
        match parseE fs rootAlias features n (PRq.subs fromA aliasName rest st) with
        | .ok (PRs.subs ms' st') => .ok (PRs.subs ((nm, sm) :: ms') st')
        | .ok _ => .error (Err.internal "model: shape")
        | .error e => .error e

/-- `parse` entry for one job: the metamodule and the updated store. -/
def parseM (fs : FS) (rootAlias features : String) (fuel : Nat) (job : ModuleJob)
    (st : PipelineStore) : Except Err (MetaModule × PipelineStore) :=
  match parseE fs rootAlias features fuel (PRq.one job st) with
  | .ok (PRs.meta mm st') => .ok (mm, st')
  | .ok _ => .error (Err.internal "model: shape")
  | .error e => .error e

/-- `Pipeline::compile` (pipeline.rs:140-166): run the parse of the root
job (`parse_root`), optionally dump the diagnostic cache (I/O, elided),
and return the literal string `"script"`.  No render or emit stage runs. -/
def compileP (fs : FS) (rootAlias features sourcePath : String) (fuel : Nat)
    (st : PipelineStore) : Except Err String :=
  match parseM fs rootAlias features fuel (ModuleJob.mk sourcePath none rootAlias) st with
  | .ok _ => .ok "script"
  | .error e => .error e

/-! ## Emitter (`emitter.rs`) -/

/-- An entry of the `tasks_to_render` list `ShellGenerator::generate`
builds and then splices into the shell-script template. -/
structure TemplateTask where
  name : String
  body : String
  source : String
deriving DecidableEq

/-- Lower-case hex of a hash (`format!("task_{:x}", hash)`). -/
def natHex (n : Nat) : String := String.mk (Nat.toDigits 16 n)

/-- The emitter's BFS state: its `visited_hashes` set, the accumulated
`tasks_to_render` list, and nodes newly queued while draining one node. -/
structure GenState where
  vis : List Nat
  acc : List TemplateTask
  queue : List TaskNode

/-- One dependency hash of a drained node (emitter.rs:79-91): skip if
already visited; otherwise emit a `task_<hex>` entry and enqueue the node
when the hash is in the `tasks` store, and do nothing at all when it is
not. -/
def depStep (st : PipelineStore) (g : GenState) (dep : Nat) : GenState :=
  if g.vis.contains dep then g
  else
    match alookup st.tasks dep with
    | some nd =>
        ⟨g.vis ++ [dep],
         g.acc ++ [⟨"task_" ++ natHex dep, nd.cmd, "Hash: " ++ natHex dep⟩],
         g.queue ++ [nd]⟩
    | none => ⟨g.vis ++ [dep], g.acc, g.queue⟩

/-- The transitive-dependency drain loop (emitter.rs:78-92). -/
def genGo (st : PipelineStore) : Nat → List TaskNode → List Nat → List TemplateTask →
    Except Err (List TemplateTask)
  | 0, _, _, _ => .error Err.fuel
  | _ + 1, [], _, acc => .ok acc
  | n + 1, nd :: rest, vis, acc =>
    let g := nd.deps.foldl (depStep st) ⟨vis, acc, []⟩
    genGo st n (rest ++ g.queue) g.vis g.acc

/-- The entry-point loop (emitter.rs:59-75): render each root task with
empty call props, dedup by node hash, emit `<root_alias>:<task>` entries,
queue the nodes. -/
def genRoots (st : PipelineStore) (rootAlias : String) (rootMod : Module) (fuel : Nat) :
    List String → GenState → Except Err GenState
  | [], g => .ok g
  | tn :: rest, g =>
    match evalR st fuel (Rq.comp rootMod tn [] []) with
    | .ok (Rs.node nd _) =>
      if g.vis.contains nd.hash then genRoots st rootAlias rootMod fuel rest g
      else
        genRoots st rootAlias rootMod fuel rest
          ⟨g.vis ++ [nd.hash],
           g.acc ++ [⟨rootAlias ++ ":" ++ tn, nd.cmd, rootAlias ++ "." ++ tn⟩],
           g.queue ++ [nd]⟩
    | .ok _ => .error (Err.internal "model: shape")
    | .error e => .error e

/-- `ShellGenerator::generate` (emitter.rs:35-109) up to the construction
of the ordered `tasks_to_render` list (step 4 only splices this list into
the embedded shell template). -/
def generate (fuel : Nat) (st : PipelineStore) (rootAlias : String) :
    Except Err (List TemplateTask) :=
  match alookup st.aliases rootAlias with
  | none => .error (Err.internal "Root alias not found")
  | some rh =>
    match alookup st.metamodules rh with
    | none => .error (Err.internal "Root module not found")
    | some meta =>
      match genRoots st rootAlias meta.module fuel (meta.module.tasks.map Prod.fst)
          ⟨[], [], []⟩ with
      | .ok g => genGo st fuel g.queue g.vis g.acc
      | .error e => .error e

/-! ## Spec-side reference definitions

These follow the wording of the specification (§4.5.3), not the source;
they exist to be compared against the source-derived definitions above. -/

/-- The innermost defined layer of a precedence chain: the first props
layer that binds the name wins. -/
def firstDefined : List Props → String → Option String
  | [], _ => none
  | p :: rest, k =>
    match alookup p k with
    | some v => some v
    | none => firstDefined rest k

/-- Following the spec's words: the props layers of the full `uses:` chain
starting at a module, nearest module first, walked to the given depth
bound (the spec names a bound of 100). -/
def specChainProps (store : PipelineStore) : Nat → Module → List Props
  | 0, _ => []
  | n + 1, m =>
    m.props ::
      (match moduleDefTarget store m with
       | some d => specChainProps store n d
       | none => [])

/-- Following the spec's words (§4.5.3): `props.<k>` resolves to the
innermost defined layer among call-site props, task props, and the props
of every module along the full `uses:` chain. -/
def specPropsResolve (store : PipelineStore) (m : Module) (taskProps callProps : Props)
    (k : String) : Option String :=
  firstDefined (callProps :: taskProps :: specChainProps store 100 m) k

/-- The single inherited layer the source actually consults: the props of
the direct `uses:` target, when registered. -/
def oneHopLayer (store : PipelineStore) (m : Module) : List Props :=
  match moduleDefTarget store m with
  | some d => [d.props]
  | none => []

/-- The naming discipline of an emitted entry: it is either a namespaced
entry-point entry or a `task_<hex>` entry whose hash is present in the
`tasks` store — in particular no entry is ever emitted for a dependency
hash that is missing from the store. -/
def okName (st : PipelineStore) (rootAlias : String) (e : TemplateTask) : Prop :=
  (∃ tn, e.name = rootAlias ++ ":" ++ tn) ∨
  (∃ h nd, alookup st.tasks h = some nd ∧ e.name = "task_" ++ natHex h)

/-! ## Concrete fixtures

Small stores and modules taken from the spec's scenarios S1-S6 and from
the repository's own unit tests in `renderer.rs` / `emitter.rs`. -/

/-- S1: the hello-world root module (`tasks.hello.cmd` echoes
`props.msg`, `props.msg = "World"`). -/
def helloModule : Module :=
  Module.mk none [("msg", "World")]
    [("hello", Task.mk none [] [Part.lit "echo ", Part.propRef "msg"])] []

/-- S1 filesystem: the single root source file. -/
def helloFS : FS := [("qwex.yaml", SrcFile.mk "H" helloModule)]

/-- C2 counterexample chain, base-most module: defines `x`. -/
def chainM2 : Module := Module.mk none [("x", "base")] [] []

/-- C2 counterexample chain, middle module: `uses: Hash(2)`, no props. -/
def chainM1 : Module := Module.mk (some (UseRef.Hash 2)) [] [] []

/-- C2 counterexample chain, top module: `uses: Hash(1)`, task `t` whose
template reads `props.x`. -/
def chainM0 : Module :=
  Module.mk (some (UseRef.Hash 1)) []
    [("t", Task.mk none [] [Part.propRef "x"])] []

/-- Store for the depth-2 `uses:` chain. -/
def chainStore : PipelineStore :=
  ⟨[(1, MetaModule.mk chainM1 1), (2, MetaModule.mk chainM2 2)], [], []⟩

/-- C2 witness task: task-level `x`, overridden by the call site. -/
def w1task : Task := Task.mk none [("x", "TASK")] [Part.propRef "x"]

/-- C2 witness parent module (direct `uses:` target). -/
def w1parent : Module := Module.mk none [("x", "inh")] [] []

/-- C2 witness module: module-level `x`, one `uses:` hop. -/
def w1mod : Module :=
  Module.mk (some (UseRef.Hash 1)) [("x", "MOD")] [("t", w1task)] []

/-- Store for the C2 witness. -/
def w1store : PipelineStore := ⟨[(1, MetaModule.mk w1parent 1)], [], []⟩

/-- S6: `a.yaml` imports `./b.yaml` and vice versa (paths shown
canonical). -/
def cycFS : FS :=
  [("a", SrcFile.mk "A" (Module.mk (some (UseRef.Define "b")) [] [] [])),
   ("b", SrcFile.mk "B" (Module.mk (some (UseRef.Define "a")) [] [] []))]

/-- Root job opening `a`. -/
def cycJobA : ModuleJob := ModuleJob.mk "a" none "root"

/-- The job `parse` builds for the import of `b` (same `from`, same
alias). -/
def cycJobB : ModuleJob := ModuleJob.mk "b" none "root"

/-- C4 fixture, the `test_generate_with_deps` scenario: library module with
task `helper`. -/
def emitLib : Module :=
  Module.mk none [] [("helper", Task.mk none [] [Part.lit "echo help"])] []

/-- C4 fixture: root module whose `main` calls `lib.tasks.helper()`. -/
def emitRoot : Module :=
  Module.mk none [] [("main", Task.mk none [] [Part.taskCall ["lib"] "helper" []])]
    [("lib", emitLib)]

/-- C4 store: both modules registered, empty `tasks` store. -/
def emitStore : PipelineStore :=
  ⟨[(10, MetaModule.mk emitLib 10), (20, MetaModule.mk emitRoot 20)],
   [("lib", 10), ("root", 20)], []⟩

/-- C5 fixture, the `test_cross_module_dependency_tracking` scenario:
module `b` with `task_b`. -/
def crossB : Module :=
  Module.mk none [] [("task_b", Task.mk none [] [Part.lit "Output B"])] []

/-- C5 fixture: module `a` calling `b.tasks.task_b()`. -/
def crossA : Module :=
  Module.mk none [] [("task_a", Task.mk none [] [Part.taskCall ["b"] "task_b" []])]
    [("b", crossB)]

/-- C5 store. -/
def crossStore : PipelineStore :=
  ⟨[(201, MetaModule.mk crossB 201), (200, MetaModule.mk crossA 200)],
   [("b", 201), ("a", 200)], []⟩

/-- S4 library module: `main` renders `props.mode`, default `"default"`. -/
def s4lib : Module :=
  Module.mk none [("mode", "default")]
    [("main", Task.mk none [] [Part.lit "Library Action: ", Part.propRef "mode"])] []

/-- S4 sugar task: `uses: Hash(41)`, `props.mode = "sugar"`, its own `cmd`
present but ignored. -/
def deployTask : Task :=
  Task.mk (some (UseRef.Hash 41)) [("mode", "sugar")] [Part.lit "ignored"]

/-- S4 consumer module carrying the sugar task `deploy`. -/
def consumerMod : Module := Module.mk none [] [("deploy", deployTask)] []

/-- S4 store. -/
def s4store : PipelineStore :=
  ⟨[(41, MetaModule.mk s4lib 41), (40, MetaModule.mk consumerMod 40)],
   [("lib", 41), ("consumer", 40)], []⟩

/-- C7 fixture, the `test_deep_inheritance_props` scenario: base module
defining task `run`. -/
def deepBase : Module :=
  Module.mk none [("val", "base")]
    [("run", Task.mk none [] [Part.lit "Value: ", Part.propRef "val"])] []

/-- C7 middle module: inherits base, overrides `val`. -/
def deepMiddle : Module := Module.mk (some (UseRef.Hash 100)) [("val", "middle")] [] []

/-- C7 app module: inherits middle, overrides `val`. -/
def deepApp : Module := Module.mk (some (UseRef.Hash 101)) [("val", "app")] [] []

/-- C7 store. -/
def deepStore : PipelineStore :=
  ⟨[(100, MetaModule.mk deepBase 100), (101, MetaModule.mk deepMiddle 101),
    (102, MetaModule.mk deepApp 102)],
   [("base", 100), ("middle", 101), ("app", 102)], []⟩

/-- C8 fixture: the imported library source, carrying a feature-suffixed
submodule `x[extra]`. -/
def c8lib : Module :=
  Module.mk none [("p", "v")] []
    [("x[extra]", Module.mk none [] [("inner", Task.mk none [] [Part.lit "i"])] [])]

/-- C8 fixture: the root source importing the library. -/
def c8root : Module := Module.mk (some (UseRef.Define "lib.yaml")) [] [] []

/-- C8 filesystem. -/
def c8fs : FS :=
  [("root.yaml", SrcFile.mk "R" c8root), ("lib.yaml", SrcFile.mk "L" c8lib)]

/-- C8 root job. -/
def c8job : ModuleJob := ModuleJob.mk "root.yaml" none "root"

/-- C9 counterexample: a root whose selected subtree is keyed
`props[f]` but carries a task. -/
def c9mod : Module :=
  Module.mk none [] []
    [("props[f]", Module.mk none [] [("sneak", Task.mk none [] [Part.lit "s"])] [])]

/-- C9 witness base module. -/
def w9acc : Module :=
  Module.mk none [("a", "1")] [("t0", Task.mk none [] [Part.lit "z"])]
    [("sub", Module.mk none [] [] [])]

/-- C9 witness addition subtree. -/
def w9fm : Module :=
  Module.mk none [("a", "2"), ("b", "3")] [("t1", Task.mk none [] [Part.lit "y"])] []

/-- C10 root module: task `t` with a constant command. -/
def c10root : Module :=
  Module.mk none [] [("t", Task.mk none [] [Part.lit "CMD"])] []

/-- The node hash `compile_task_internal` computes for `c10root`'s task
`t` (empty effective props). -/
def c10key : Nat := taskHash [Part.lit "CMD"] []

/-- A `TaskNode` sitting in the `tasks` store under that hash whose `deps`
contains the dangling hash 999, which has no store entry. -/
def c10node : TaskNode := TaskNode.mk "STORED" [999] c10key "old"

/-- C10 store: the root task's hash is cached with a dangling dependency. -/
def c10store : PipelineStore :=
  ⟨[(7, MetaModule.mk c10root 7)], [("root", 7)], [(c10key, c10node)]⟩

/-! ## Helper lemmas -/

/-- Appending the empty string is the identity. -/
theorem sAppendEmpty (s : String) : s ++ "" = s := by
  cases s with
  | mk d =>
    show String.mk (d ++ []) = String.mk d
    rw [List.append_nil]

/-- Looking up the key just inserted returns the inserted value. -/
theorem alookup_ainsert {A : Type} (l : List (String × A)) (k : String) (v : A) :
    alookup (ainsert l k v) k = some v := by
  induction l with
  | nil => simp [ainsert, alookup]
  | cons q rest ih =>
    by_cases h : q.1 = k
    · simp [ainsert, h, alookup]
    · simp [ainsert, h, alookup, ih]

/-- `PropsContext::get_value` realises exactly the innermost-defined-layer
lookup over the chain call-site props, task props, module props, and the
single direct `uses:` layer. -/
theorem propsLookup_firstDefined (store : PipelineStore) (m : Module)
    (tp cp : Props) (k : String) :
    propsLookupCode store m tp cp k
      = firstDefined (cp :: tp :: m.props :: oneHopLayer store m) k := by
  simp only [propsLookupCode, oneHopLayer, firstDefined]
  cases alookup cp k <;> cases alookup tp k <;> cases alookup m.props k <;>
    cases moduleDefTarget store m <;> simp [firstDefined]
  rename_i d
  cases alookup d.props k <;> simp

/-- On the cyclic two-file graph, `parse` started on either file with any
store that does not already contain the two content hashes only ever
exhausts its fuel: the store is not extended before the recursive import
resolution, so the recursion never reaches a cache hit. -/
theorem cycAux : ∀ (n : Nat) (st : PipelineStore),
    alookup st.metamodules (hashStr "A") = none →
    alookup st.metamodules (hashStr "B") = none →
    parseE cycFS "root" "default" n (PRq.one cycJobA st) = .error Err.fuel ∧
    parseE cycFS "root" "default" n (PRq.one cycJobB st) = .error Err.fuel := by
  intro n
  induction n with
  | zero => intro st hA hB; exact ⟨rfl, rfl⟩
  | succ n ih =>
    intro st hA hB
    have ihA := (ih st hA hB).1
    have ihB := (ih st hA hB).2
    unfold cycJobA cycFS at ihA
    unfold cycJobB cycFS at ihB
    refine ⟨?_, ?_⟩
    · simp [parseE, cycJobA, resolveJob, cycFS, alookup, mergeFeatures, mergeStep,
        Module.uses, Module.props, Module.tasks, Module.modules, hA, hB, ihB]
    · simp [parseE, cycJobB, resolveJob, cycFS, alookup, mergeFeatures, mergeStep,
        Module.uses, Module.props, Module.tasks, Module.modules, hA, hB, ihA]

/-- Entries added by the dependency fold of one drained node all carry a
`task_<hex>` name whose hash is present in the `tasks` store. -/
theorem depStep_fold_mem (st : PipelineStore) (deps : List Nat) :
    ∀ (g : GenState) (e : TemplateTask), e ∈ (deps.foldl (depStep st) g).acc →
      e ∈ g.acc ∨ ∃ h nd, alookup st.tasks h = some nd ∧ e.name = "task_" ++ natHex h := by
  induction deps with
  | nil => intro g e he; exact Or.inl he
  | cons d rest ih =>
    intro g e he
    rw [List.foldl_cons] at he
    rcases ih (depStep st g d) e he with h1 | h2
    · unfold depStep at h1
      by_cases hv : g.vis.contains d = true
      · rw [if_pos hv] at h1
        exact Or.inl h1
      · rw [if_neg hv] at h1
        cases hnd : alookup st.tasks d with
        | some nd =>
          rw [hnd] at h1
          rcases List.mem_append.mp h1 with ha | hb
          · exact Or.inl ha
          · exact Or.inr ⟨d, nd, hnd, by rw [List.mem_singleton.mp hb]⟩
        | none =>
          rw [hnd] at h1
          exact Or.inl h1
    · exact Or.inr h2

/-- Every entry the dependency drain loop produces beyond its input
accumulator names a hash present in the `tasks` store. -/
theorem genGo_mem (st : PipelineStore) :
    ∀ (fuel : Nat) (queue : List TaskNode) (vis : List Nat) (acc out : List TemplateTask),
      genGo st fuel queue vis acc = .ok out → ∀ e ∈ out,
        e ∈ acc ∨ ∃ h nd, alookup st.tasks h = some nd ∧ e.name = "task_" ++ natHex h := by
  intro fuel
  induction fuel with
  | zero => intro queue vis acc out hok; exact absurd hok (by simp [genGo])
  | succ n ih =>
    intro queue vis acc out hok e he
    cases queue with
    | nil =>
      simp [genGo] at hok
      subst hok
      exact Or.inl he
    | cons nd rest =>
      simp only [genGo] at hok
      rcases ih _ _ _ _ hok e he with h1 | h2
      · rcases depStep_fold_mem st nd.deps ⟨vis, acc, []⟩ e h1 with ha | hb
        · exact Or.inl ha
        · exact Or.inr hb
      · exact Or.inr h2

/-- Every entry the entry-point loop produces beyond its input accumulator
carries a namespaced `<root_alias>:<task>` name. -/
theorem genRoots_mem (st : PipelineStore) (rootAlias : String) (rootMod : Module)
    (fuel : Nat) :
    ∀ (names : List String) (g gout : GenState),
      genRoots st rootAlias rootMod fuel names g = .ok gout → ∀ e ∈ gout.acc,
        e ∈ g.acc ∨ ∃ tn, e.name = rootAlias ++ ":" ++ tn := by
  intro names
  induction names with
  | nil =>
    intro g gout hok e he
    simp [genRoots] at hok
    subst hok
    exact Or.inl he
  | cons tn rest ih =>
    intro g gout hok e he
    simp only [genRoots] at hok
    cases hev : evalR st fuel (Rq.comp rootMod tn [] []) with
    | error err => rw [hev] at hok; exact Except.noConfusion hok
    | ok r =>
      rw [hev] at hok
      cases r with
      | str s v => exact Except.noConfusion hok
      | node nd v =>
        by_cases hv : g.vis.contains nd.hash
        · simp only [hv, if_true] at hok
          exact ih _ _ hok e he
        · simp only [hv, if_false, Bool.false_eq_true] at hok
          rcases ih _ _ hok e he with h1 | h2
          · rcases List.mem_append.mp h1 with ha | hb
            · exact Or.inl ha
            · exact Or.inr ⟨tn, by rw [List.mem_singleton.mp hb]⟩
          · exact Or.inr h2

/-! ## Claim theorems -/

/-- C1: `Pipeline::compile` on the S1 hello-world root parses successfully
but returns the constant string `"script"`, which cannot contain a
`root:hello` function (it contains no colon at all); it is not the emitted
shell script that parse→resolve→render-all→emit would produce. -/
theorem compile_returns_placeholder :
    compileP helloFS "root" "default" "qwex.yaml" 10 pstore0 = .ok "script"
    ∧ "script".data.contains ':' = false := by
  exact ⟨by decide, by decide⟩

/-- C2 (amended): for a non-sugar task whose template reads `props.x`,
compiled against a store with an empty task cache, the rendered value is
the innermost defined layer among call-site props, task props, containing
module props and the props of the direct `uses:` target only — the chain
is truncated after one inheritance hop (an undefined name renders as the
empty string). -/
theorem props_precedence_truncated (fuel : Nat) (store : PipelineStore) (mod : Module)
    (name : String) (call : Props) (tdef : Task)
    (hstore : store.tasks = [])
    (hl : lookupTaskDef store mod name = some tdef)
    (hu : ∀ h, tdef.uses ≠ some (UseRef.Hash h))
    (hc : tdef.cmd = [Part.propRef "x"]) :
    compiledCmd (fuel + 3) store mod name call
      = .ok ((firstDefined (call :: tdef.props :: mod.props :: oneHopLayer store mod)
          "x").getD "") := by
  unfold compiledCmd
  rcases htu : tdef.uses with _ | u
  · simp [evalR, hl, htu, hc, hstore, alookup, sAppendEmpty, propsLookup_firstDefined]
  · cases u with
    | Define s =>
      simp [evalR, hl, htu, hc, hstore, alookup, sAppendEmpty, propsLookup_firstDefined]
    | Hash h => exact absurd htu (hu h)

/-- C2 witness: with a task-level and a call-site binding of `x` over one
`uses:` hop, the rendered value is the call-site one. -/
theorem props_precedence_truncated_spot :
    compiledCmd 5 w1store w1mod "t" [("x", "CALL")] = .ok "CALL" := by
  have h := props_precedence_truncated 2 w1store w1mod "t" [("x", "CALL")] w1task rfl rfl
    (fun h hh => by cases hh) rfl
  exact h.trans (by decide)

/-- C2 counterexample: on a depth-2 `uses:` chain where `x` is defined
only at the base-most module, the code renders the empty string while the
spec's full-chain resolution yields `"base"` — the claim as stated fails
at chain depth 2. -/
theorem props_full_chain_cex :
    compiledCmd 9 chainStore chainM0 "t" [] = .ok ""
    ∧ specPropsResolve chainStore chainM0 [] [] "x" = some "base" := by
  exact ⟨by decide, by decide⟩

/-- C3: on the cyclic import graph `a ↔ b`, `Pipeline::parse` never
terminates: for every fuel bound it exhausts the fuel (the image of
unbounded recursion), and in particular never returns a
`CyclicDependency` error and never succeeds. -/
theorem cyclic_parse_diverges :
    ∀ fuel : Nat, parseM cycFS "root" "default" fuel cycJobA pstore0 = .error Err.fuel := by
  intro fuel
  have h := (cycAux fuel pstore0 rfl rfl).1
  simp [parseM, h]

/-- C4: in the emitter's own `test_generate_with_deps` scenario the
generated list contains exactly the entry-point entry; no `task_<hex>`
body is emitted for the dependency's hash, because `compile_task_internal`
never stores rendered nodes in the `tasks` store (and never records the
dependency hash), so the dedup/lookup machinery finds nothing. -/
theorem dep_body_missing :
    generate 20 emitStore "root" = .ok [⟨"root:main", "echo help", "root.main"⟩] := by
  decide

/-- C5: in the renderer's own `test_cross_module_dependency_tracking`
scenario, compiling `task_a` does compile and inline `task_b` (the
rendered command is `Output B`) but the resulting node's `deps` set is
empty: the visited set is only ever extended on a cache hit, and nothing
registers `task_b`'s node in the `tasks` store. -/
theorem deps_not_tracked :
    (renderTop 10 crossStore "a" "task_a").map (fun n => (n.cmd, n.deps))
      = .ok ("Output B", []) := by
  decide

/-- C6: when the resolved task definition carries `uses: Hash(h)`, one
compile step is exactly the recursive compilation of `main` on the virtual
module with `uses = Hash(h)` and the task props overridden by the
call-site props, with empty call props; the sugar task's own `cmd` plays
no part, and S4 renders `Library Action: sugar`. -/
theorem uses_sugar_virtual_module :
    (∀ (fuel : Nat) (store : PipelineStore) (mod : Module) (name : String) (call : Props)
        (visited : List Nat) (tdef : Task) (h : Nat),
        lookupTaskDef store mod name = some tdef →
        tdef.uses = some (UseRef.Hash h) →
        evalR store (fuel + 1) (Rq.comp mod name call visited)
          = evalR store fuel
              (Rq.comp (virtualModule h (aextend tdef.props call)) "main" [] visited))
    ∧ (renderTop 10 s4store "consumer" "deploy").map TaskNode.cmd
        = .ok "Library Action: sugar" := by
  refine ⟨?_, by decide⟩
  intro fuel store mod name call visited tdef h hl hu
  simp [evalR, hl, hu]

/-- C6 witness: the sugar step instantiated on the S4 store. -/
theorem uses_sugar_virtual_module_spot :
    evalR s4store 5 (Rq.comp consumerMod "deploy" [] [])
      = evalR s4store 4
          (Rq.comp (virtualModule 41 (aextend deployTask.props [])) "main" [] []) :=
  uses_sugar_virtual_module.1 4 s4store consumerMod "deploy" [] [] deployTask 41 rfl rfl

/-- C7: on the `test_deep_inheritance_props` chain (task `run` defined only
two `uses:` hops up), compilation fails with the `Internal` message
`Task run not found`: lookup consults only the module and its direct
`uses:` target, there is no bounded-depth chain walk and no `TaskNotFound`
error kind. -/
theorem deep_lookup_fails :
    renderTop 10 deepStore "app" "run" = .error (Err.internal "Task run not found") := by
  decide

/-- C8: parsing a root that imports `lib.yaml` runs the feature merger on
the import as well (`from` is propagated as `None`, so `is_src` holds for
every job): the imported module's feature-suffixed submodule `x[extra]` is
dropped from the stored metamodule instead of passing through as-is. -/
theorem import_feature_merge_applied :
    (parseM c8fs "root" "default" 10 c8job pstore0).map
        (fun r => (alookup r.2.metamodules (hashStr "L")).map
          (fun mm => mm.module.modules.map Prod.fst))
      = .ok (some [])
    ∧ c8lib.modules.map Prod.fst = ["x[extra]"] := by
  exact ⟨by decide, by decide⟩

/-- C9 (amended): a selected subtree whose unsuffixed key is either
reserved word (`tasks` or `props`) is merged in place by
`merge_module_in_place`, which merges the subtree's tasks into the
enclosing `tasks` and its props into the enclosing `props` regardless of
which reserved key selected it, leaves the enclosing submodules untouched,
and later entries overwrite earlier ones. -/
theorem reserved_key_merge :
    (∀ (acc fm : Module) (name : String), name = taskKey ∨ name = propKey →
        mergeInto acc name fm
          = Module.mk acc.uses (aextend acc.props fm.props)
              (fm.tasks.foldl (fun ts q => ainsert ts q.1 q.2) acc.tasks) acc.modules)
    ∧ (∀ (ps : Props) (k v1 v2 : String),
        alookup (aextend (aextend ps [(k, v1)]) [(k, v2)]) k = some v2) := by
  constructor
  · intro acc fm name hn
    unfold mergeInto
    rw [if_pos hn]
    rfl
  · intro ps k v1 v2
    show alookup (ainsert (ainsert ps k v1) k v2) k = some v2
    exact alookup_ainsert _ _ _

/-- C9 witness: the reserved merge instantiated on concrete modules under
the `props` key. -/
theorem reserved_key_merge_spot :
    mergeInto w9acc "props" w9fm
      = Module.mk w9acc.uses (aextend w9acc.props w9fm.props)
          (w9fm.tasks.foldl (fun ts q => ainsert ts q.1 q.2) w9acc.tasks) w9acc.modules :=
  reserved_key_merge.1 w9acc w9fm "props" (Or.inr rfl)

/-- C9 counterexample: a subtree keyed `props[f]` that carries a task
merges that task into the enclosing `tasks` namespace (and contributes
nothing to `props`), refuting "each only into its own namespace". -/
theorem reserved_cross_namespace_cex :
    (mergeFeatures c9mod true "f").tasks.map Prod.fst = ["sneak"]
    ∧ (mergeFeatures c9mod true "f").props = [] := by
  exact ⟨by decide, by decide⟩

/-- C10: `ShellGenerator::generate` silently skips every dependency hash
that has no entry in the `tasks` store: any successful run only emits
entries that are entry points or name a hash present in the store, and on
a store whose cached root node carries the dangling dependency 999 the
generator still succeeds, emitting no function for that hash. -/
theorem generate_skips_missing_deps :
    (∀ (fuel : Nat) (st : PipelineStore) (rootAlias : String) (out : List TemplateTask),
        generate fuel st rootAlias = .ok out → ∀ e ∈ out, okName st rootAlias e)
    ∧ generate 20 c10store "root" = .ok [⟨"root:t", "STORED", "root.t"⟩] := by
  refine ⟨?_, by decide⟩
  intro fuel st rootAlias out hok e he
  unfold generate at hok
  split at hok
  · exact Except.noConfusion hok
  · split at hok
    · exact Except.noConfusion hok
    · rename_i rh hrh meta hmeta
      split at hok
      · rename_i g h3
        rcases genGo_mem st fuel g.queue g.vis g.acc out hok e he with h4 | h5
        · rcases genRoots_mem st rootAlias meta.module fuel _ _ _ h3 e h4 with h6 | h7
          · exact absurd h6 (List.not_mem_nil e)
          · exact Or.inl h7
        · exact Or.inr h5
      · exact Except.noConfusion hok

/-- C10 witness: the naming discipline applied to the single entry emitted
on the dangling-dependency store. -/
theorem generate_skips_missing_deps_spot :
    okName c10store "root" (TemplateTask.mk "root:t" "STORED" "root.t") :=
  generate_skips_missing_deps.1 20 c10store "root" [⟨"root:t", "STORED", "root.t"⟩]
    generate_skips_missing_deps.2 (TemplateTask.mk "root:t" "STORED" "root.t") (by decide)

end Qwex
